import Mathlib

/-!
Shallow embedding of the recommendation engine of `closet_app`
(`src/services/ai_stylist.py` and the `/recommend` route of `src/main.py`).

Conventions of the embedding:
* Python `dict` values that the code accesses dynamically are embedded as
  inductive types distinguishing a missing key, an explicit `None` value,
  and a present value, because `d.get(k, default)` returns the stored value
  (even `None`) when the key is present and only falls back to the default
  when the key is absent, while `d[k]` raises on a missing key.
* Python floats (temperatures, scores, the random tie-breaker) are embedded
  as rationals `ℚ`.
* Dates are embedded as integer day ordinals, so `date - timedelta(days=n)`
  is integer subtraction and date comparison is integer comparison.
* Code that can raise is embedded in `Except String`, the error string
  naming the Python exception class.
* `random.random() * 0.5` is embedded as an explicit parameter `r : ℚ`
  (one draw per scoring call, threaded by call index); theorems that need
  the draw's range state `0 ≤ r ∧ r < 1/2` as a hypothesis.
-/

set_option linter.unusedVariables false

deriving instance DecidableEq for Except

namespace ClosetApp

/-- Value stored under a candidate dict's `"category"` key: the key may be
absent, present with Python `None`, or present with a string. -/
inductive CatVal where
  | missing : CatVal
  | null : CatVal
  | str : String → CatVal
deriving DecidableEq

/-- Fields of a feature dict (`color`, `pattern`, `warmth_level`,
`is_rain_ok`), each possibly absent or `None` (collapsed into `none`,
since `dict.get` returns `None` in both cases). -/
structure Feat where
  color : Option String := none
  pattern : Option String := none
  warmth_level : Option Int := none
  is_rain_ok : Option Bool := none
deriving DecidableEq

/-- Value stored under a candidate dict's `"features"` key: absent key,
explicit `None`, or a feature dict. -/
inductive FeaturesVal where
  | missing : FeaturesVal
  | null : FeaturesVal
  | dict : Feat → FeaturesVal
deriving DecidableEq

/-- True when the features value is an actual dict. -/
def FeaturesVal.isDict : FeaturesVal → Bool
  | .dict _ => true
  | _ => false

/-- A candidate dict as built by the `/recommend` route:
`{"cloth_id": ..., "category": ..., "features": ...}`. -/
structure Item where
  cloth_id : Nat := 0
  category : CatVal := .missing
  features : FeaturesVal := .missing
deriving DecidableEq

/-- Embeds `temp_c <= 5 ... target = ...` of `_heuristic_score`
(src/services/ai_stylist.py lines 174-183). -/
def targetWarmth (temp_c : ℚ) : Int :=
  if temp_c ≤ 5 then 5
  else if temp_c ≤ 12 then 4
  else if temp_c ≤ 18 then 3
  else if temp_c ≤ 24 then 2
  else 1

/-- Embeds Python `x or 3` applied to a retrieved warmth value: `None` and
`0` are falsy and fall through to 3, every other integer is itself. -/
def pyOrWarmth : Option Int → Int
  | none => 3
  | some v => if v = 0 then 3 else v

/-- Embeds `wl = item.get("features", {}).get("warmth_level") or 3`:
a missing features key defaults to `{}` whose `get` yields `None`;
a `None` features value raises `AttributeError` on `.get`; in a dict,
an absent or `None` or `0` warmth (all falsy under Python `or`) becomes 3. -/
def warmthOf : FeaturesVal → Except String Int
  | .missing => .ok 3
  | .null => .error "AttributeError"
  | .dict f => .ok (pyOrWarmth f.warmth_level)

/-- Embeds `item.get("features", {}).get("is_rain_ok", False)`: a missing
features key defaults to `{}` (so `False`); a `None` features value raises
`AttributeError`; in a dict, an absent key defaults to `False`. -/
def rainOkOf : FeaturesVal → Except String Bool
  | .missing => .ok false
  | .null => .error "AttributeError"
  | .dict f => .ok (f.is_rain_ok.getD false)

/-- Embeds `weather.lower().startswith("rain")`: lower-case the characters
and test the prefix. Stated over the character list (`String.data`) so that
the definition evaluates inside the kernel; `Char.toLower` matches Python
`str.lower` on the ASCII weather strings the app uses. -/
def isRainy (weather : String) : Bool :=
  List.isPrefixOf "rain".data (weather.data.map Char.toLower)

/-- Embeds `_heuristic_score(item, temp_c, weather, tpo)`
(src/services/ai_stylist.py lines 171-193), with the draw
`random.random() * 0.5` passed in as `r`. The `tpo` argument is accepted
exactly as in the source and, as there, not read. -/
def heuristic_score (item : Item) (temp_c : ℚ) (weather : String)
    (tpo : Option String) (r : ℚ) : Except String ℚ :=
  let target := targetWarmth temp_c
  match warmthOf item.features with
  | .error e => .error e
  | .ok wl =>
    let score : Int := 10 - |target - wl|
    if isRainy weather then
      match rainOkOf item.features with
      | .error e => .error e
      | .ok rainOk =>
        if rainOk then .ok ((score : ℚ) + r)
        else .ok (((score : ℚ) - 3) + r)
    else .ok ((score : ℚ) + r)

/-- Embeds `cat = c.get("category", "その他")` used as the group key in
`recommend_outfit`: a missing key falls back to the default label; an
explicit `None` value is returned unchanged as the key (Python `dict.get`
returns the stored value even when it is `None`, the default applies only
to an absent key); a string is itself. The key type is `Option String`,
with `none` embedding the Python `None` key. -/
def getCatKey (c : Item) : Option String :=
  match c.category with
  | .missing => some "その他"
  | .null => none
  | .str s => some s

/-- Embeds `by_cat.setdefault(cat, []).append(c)`: append `c` to the group
keyed `k`, creating the group at the end when the key is new (Python dicts
iterate in insertion order). -/
def addToGroup : List (Option String × List Item) → Option String → Item →
    List (Option String × List Item)
  | [], k, c => [(k, [c])]
  | (k0, items) :: rest, k, c =>
    if k0 = k then (k0, items ++ [c]) :: rest
    else (k0, items) :: addToGroup rest k c

/-- Embeds the `by_cat` grouping loop of `recommend_outfit`
(src/services/ai_stylist.py lines 202-206). -/
def groupByCat (candidates : List Item) : List (Option String × List Item) :=
  candidates.foldl (fun acc c => addToGroup acc (getCatKey c) c) []

/-- Embeds the list comprehension
`scores = [(item, _heuristic_score(item, temp_c, weather, tpo)) for item in items]`,
threading the index of the next tie-breaker draw left to right. -/
def scoreItems (temp_c : ℚ) (weather : String) (tpo : Option String)
    (r : Nat → ℚ) : Nat → List Item → Except String (List (Item × ℚ))
  | _, [] => .ok []
  | idx, c :: cs =>
    match heuristic_score c temp_c weather tpo (r idx) with
    | .error e => .error e
    | .ok s =>
      match scoreItems temp_c weather tpo r (idx + 1) cs with
      | .error e => .error e
      | .ok rest => .ok ((c, s) :: rest)

/-- Renders a value retrieved from a feature dict inside the f-string of
`recommend_outfit`: Python formats `None` as the text `None` and a string
as itself. -/
def featStr : Option String → String
  | none => "None"
  | some s => s

/-- Renders the group key inside the f-string: the Python `None` key is
formatted as the text `None`. -/
def catStr : Option String → String
  | none => "None"
  | some s => s

/-- Models the `f"... {scores[0][1]:.1f} ..."` one-decimal rendering of the
score. The exact decimal text of a rounded binary float is immaterial to
every stated property; the embedding renders the rational rounded to
tenths. -/
def fmt1 (q : ℚ) : String :=
  toString (round (q * 10) / 10 : ℤ) ++ "." ++ toString (round (q * 10) % 10 : ℤ)

/-- Embeds the reason line
`f"{cat}には{best['features'].get('color')}の{best['features'].get('pattern')}が合います。（候補スコア {scores[0][1]:.1f}）"`:
the subscript `best['features']` raises `KeyError` on a missing key and the
subsequent `.get` raises `AttributeError` when the stored value is `None`. -/
def reasonLine (cat : Option String) (best : Item) (s : ℚ) :
    Except String String :=
  match best.features with
  | .missing => .error "KeyError"
  | .null => .error "AttributeError"
  | .dict f =>
    .ok (catStr cat ++ "には" ++ featStr f.color ++ "の" ++ featStr f.pattern ++
      "が合います。（候補スコア " ++ fmt1 s ++ "）")

/-- Embeds the selection loop `for cat, items in by_cat.items(): ...` of
`recommend_outfit` (lines 210-215): score the group, sort descending by
score (`scores.sort(key=lambda x: x[1], reverse=True)` — a stable
descending sort, embedded by `mergeSort` with the reversed comparison),
take the head (`scores[0]`, raising `IndexError` on an empty list), and
build the reason line. Returns the `selected` and `reasons` lists. -/
def selectLoop (temp_c : ℚ) (weather : String) (tpo : Option String)
    (r : Nat → ℚ) : Nat → List (Option String × List Item) →
    Except String (List Item × List String)
  | _, [] => .ok ([], [])
  | idx, (cat, items) :: rest =>
    match scoreItems temp_c weather tpo r idx items with
    | .error e => .error e
    | .ok scores =>
      match scores.mergeSort (fun a b => decide (b.2 ≤ a.2)) with
      | [] => .error "IndexError"
      | (best, s) :: _ =>
        match reasonLine cat best s with
        | .error e => .error e
        | .ok line =>
          match selectLoop temp_c weather tpo r (idx + items.length) rest with
          | .error e => .error e
          | .ok (sel, lines) => .ok (best :: sel, line :: lines)

/-- Return shape of `recommend_outfit`: `{"selected": ..., "reason": ...}`. -/
structure RecoResult where
  selected : List Item
  reason : String
deriving DecidableEq

/-- Embeds `recommend_outfit(candidates, temp_c, weather, tpo)`
(src/services/ai_stylist.py lines 196-218), with `r n` the value of the
n-th `random.random() * 0.5` draw of the call. -/
def recommend_outfit (candidates : List Item) (temp_c : ℚ) (weather : String)
    (tpo : Option String) (r : Nat → ℚ) : Except String RecoResult :=
  match selectLoop temp_c weather tpo r 0 (groupByCat candidates) with
  | .error e => .error e
  | .ok (sel, lines) => .ok ⟨sel, String.intercalate "\n" lines⟩

/-- Embeds `get_recommendation(candidates, temp_c, weather, tpo)`
(src/services/ai_stylist.py lines 158-168). `cfg` embeds the presence of
`OPENAI_API_KEY`; `ext` embeds the outcome of `recommend_with_openai`
(`none` for any raised exception — unavailable client, transport error,
malformed response — and `some res` for a parsed response). The first
component counts external-call attempts. -/
def get_recommendation (cfg : Bool) (ext : Option RecoResult)
    (candidates : List Item) (temp_c : ℚ) (weather : String)
    (tpo : Option String) (r : Nat → ℚ) : Nat × Except String RecoResult :=
  if cfg then
    match ext with
    | some res => (1, .ok res)
    | none => (1, recommend_outfit candidates temp_c weather tpo r)
  else (0, recommend_outfit candidates temp_c weather tpo r)

/-- A row of the `clothes` table as the `/recommend` query sees it. -/
structure ClothRec where
  cloth_id : Nat
  user_id : Nat
  status : String
  category : CatVal := .missing
  features : FeaturesVal := .missing
deriving DecidableEq

/-- A row of the `worn_history` table; `worn_date` as a day ordinal. -/
structure WornRec where
  cloth_id : Nat
  worn_date : Int
deriving DecidableEq

/-- Embeds `user.wash_cycle_days or 3`: Python `or` falls through to the
default when the stored value is `None` or `0` (both falsy). -/
def pyOrInt (v : Option Int) (d : Int) : Int :=
  match v with
  | none => d
  | some x => if x = 0 then d else x

/-- Embeds the candidate query of the `/recommend` route
(src/main.py lines 111-126): `cutoff_date = date.today() - timedelta(days=wash_days)`
and the conjunctive filter `user_id == req.user_id`, `status == "ACTIVE"`,
`cloth_id` not in the recently-worn subquery (`worn_date >= cutoff_date`),
and `status != "LAUNDRY"`. -/
def eligibleClothes (clothes : List ClothRec) (events : List WornRec)
    (uid : Nat) (wash_cycle_days : Option Int) (today : Int) : List ClothRec :=
  let wash_days := pyOrInt wash_cycle_days 3
  let cutoff_date := today - wash_days
  clothes.filter fun c =>
    c.user_id == uid && c.status == "ACTIVE" &&
      !(events.any fun e => e.cloth_id == c.cloth_id && cutoff_date ≤ e.worn_date) &&
      c.status != "LAUNDRY"

/-- Embeds the candidate projection of the route (src/main.py lines
128-136): `{"cloth_id": ..., "category": ..., "features": ...}` (the image
url carries no decision logic and is omitted from the projection). -/
def toCandidate (c : ClothRec) : Item :=
  { cloth_id := c.cloth_id, category := c.category, features := c.features }

/-- The fixed no-candidates reason of src/main.py line 139. -/
def noCandidatesReason : String := "候補となる服が見つかりませんでした。"

/-- Embeds the decision core of the `/recommend` route (src/main.py lines
111-143): build the candidate list from the eligibility query, return the
fixed empty response when it is empty without calling `get_recommendation`,
and otherwise delegate to `get_recommendation`. The first component counts
external-call attempts. -/
def recommend_route (cfg : Bool) (ext : Option RecoResult)
    (clothes : List ClothRec) (events : List WornRec) (uid : Nat)
    (wash_cycle_days : Option Int) (today : Int) (temp_c : ℚ)
    (weather : String) (tpo : Option String) (r : Nat → ℚ) :
    Nat × Except String RecoResult :=
  let candidates := (eligibleClothes clothes events uid wash_cycle_days today).map toCandidate
  if candidates.isEmpty then (0, .ok ⟨[], noCandidatesReason⟩)
  else get_recommendation cfg ext candidates temp_c weather tpo r

end ClosetApp

namespace ClosetApp

example : isRainy "Rainy day" = true := by decide

example : isRainy "clear" = false := by decide

example :
    heuristic_score { category := .str "top", features := .dict { warmth_level := some 5 } }
      3 "clear" none 0 = .ok 10 := by
  norm_num [heuristic_score, warmthOf, pyOrWarmth, targetWarmth,
    show isRainy "clear" = false from by decide]

example :
    heuristic_score { category := .str "top", features := .null } 3 "clear" none 0 =
      .error "AttributeError" := by
  norm_num [heuristic_score, warmthOf]

example :
    heuristic_score { category := .str "top", features := .dict { warmth_level := some 2 } }
      13 "RainY" none (1/4) = .ok (25/4) := by
  norm_num [heuristic_score, warmthOf, pyOrWarmth, rainOkOf, targetWarmth,
    show isRainy "RainY" = true from by decide]

/-! ### Scorer lemmas -/

/-- Closed form of `heuristic_score` when both feature accesses succeed:
an integer base (warmth match minus the conditional rain penalty) plus the
tie-breaker. -/
theorem heuristic_score_formula (i : Item) (t : ℚ) (w : String)
    (tpo : Option String) (r : ℚ) (wl : Int) (rk : Bool)
    (hwl : warmthOf i.features = .ok wl) (hrk : rainOkOf i.features = .ok rk) :
    heuristic_score i t w tpo r =
      .ok (((10 - |targetWarmth t - wl| -
        (if isRainy w && !rk then 3 else 0) : ℤ) : ℚ) + r) := by
  unfold heuristic_score
  rw [hwl]
  cases hrain : isRainy w with
  | false =>
    simp only [hrain, Bool.false_and, if_neg (by simp : ¬ (false = true))]
    norm_num
  | true =>
    rw [hrk]
    cases rk with
    | true =>
      simp only [hrain, Bool.true_and, Bool.not_true, if_neg (by simp : ¬ (false = true))]
      norm_num
    | false =>
      simp only [hrain, Bool.true_and, Bool.not_false, if_pos rfl]
      push_cast
      ring_nf

/-- Scoring an item whose features value is an actual dict succeeds. -/
theorem heuristic_score_isDict_ok (i : Item) (t : ℚ) (w : String)
    (tpo : Option String) (r : ℚ) (h : i.features.isDict = true) :
    ∃ s, heuristic_score i t w tpo r = .ok s := by
  cases hf : i.features with
  | missing => rw [hf] at h; simp [FeaturesVal.isDict] at h
  | null => rw [hf] at h; simp [FeaturesVal.isDict] at h
  | dict f =>
    exact ⟨_, heuristic_score_formula i t w tpo r (pyOrWarmth f.warmth_level)
      (f.is_rain_ok.getD false) (by rw [hf]; rfl) (by rw [hf]; rfl)⟩

/-- The tie-breaker is purely additive: the score at draw `r` is the score
at draw 0 plus `r`. -/
theorem heuristic_score_shift (i : Item) (t : ℚ) (w : String)
    (tpo : Option String) (r : ℚ) :
    heuristic_score i t w tpo r =
      (heuristic_score i t w tpo 0).map (fun s => s + r) := by
  cases hf : i.features with
  | null =>
    unfold heuristic_score
    rw [hf]
    rfl
  | missing =>
    rw [heuristic_score_formula i t w tpo r 3 false (by rw [hf]; rfl) (by rw [hf]; rfl),
      heuristic_score_formula i t w tpo 0 3 false (by rw [hf]; rfl) (by rw [hf]; rfl)]
    simp [Except.map]
  | dict f =>
    rw [heuristic_score_formula i t w tpo r (pyOrWarmth f.warmth_level)
        (f.is_rain_ok.getD false) (by rw [hf]; rfl) (by rw [hf]; rfl),
      heuristic_score_formula i t w tpo 0 (pyOrWarmth f.warmth_level)
        (f.is_rain_ok.getD false) (by rw [hf]; rfl) (by rw [hf]; rfl)]
    simp [Except.map]

/-- A successful score at draw 0 is an integer. -/
theorem heuristic_score_int (i : Item) (t : ℚ) (w : String)
    (tpo : Option String) (b : ℚ) (h : heuristic_score i t w tpo 0 = .ok b) :
    ∃ z : ℤ, b = (z : ℚ) := by
  cases hf : i.features with
  | null =>
    exfalso
    unfold heuristic_score at h
    rw [hf] at h
    exact absurd h (by simp [warmthOf])
  | missing =>
    rw [heuristic_score_formula i t w tpo 0 3 false (by rw [hf]; rfl) (by rw [hf]; rfl)] at h
    injection h with h2
    exact ⟨_, by rw [← h2, add_zero]⟩
  | dict f =>
    rw [heuristic_score_formula i t w tpo 0 (pyOrWarmth f.warmth_level)
        (f.is_rain_ok.getD false) (by rw [hf]; rfl) (by rw [hf]; rfl)] at h
    injection h with h2
    exact ⟨_, by rw [← h2, add_zero]⟩

/-- The target warmth always lies in 1..5. -/
theorem targetWarmth_range (t : ℚ) : 1 ≤ targetWarmth t ∧ targetWarmth t ≤ 5 := by
  unfold targetWarmth
  split_ifs <;> norm_num

/-- Comparison definition following the spec's words: "Map temperature to a
target warmth level via fixed breakpoints (inclusive upper bounds):
≤5→5, ≤12→4, ≤18→3, ≤24→2, else→1". -/
def specTargetWarmth (t : ℚ) : Int :=
  if t ≤ 5 then 5
  else if t ≤ 12 then 4
  else if t ≤ 18 then 3
  else if t ≤ 24 then 2
  else 1

/-- C5: for every temperature the scorer's target warmth follows the
breakpoint table ≤5→5, ≤12→4, ≤18→3, ≤24→2, else→1 (inclusive upper
bounds), and away from the rain penalty (non-rain weather) the score is
`10 − |target − warmth|` plus the tie-breaker, with a missing/null warmth
level treated as 3. The hypothesis `warmth_level ≠ some 0` restricts to the
data model's warmth values (integers 1–5 or absent); Python `or` also
coerces a stored 0 to 3. -/
theorem spec2proof_C5 (t : ℚ) (n : Nat) (cat : CatVal) (f : Feat) (w : String)
    (tpo : Option String) (r : ℚ) (hwl : f.warmth_level ≠ some 0)
    (hw : isRainy w = false) :
    targetWarmth t = specTargetWarmth t ∧
    heuristic_score { cloth_id := n, category := cat, features := .dict f } t w tpo r =
      .ok (((10 - |specTargetWarmth t - f.warmth_level.getD 3| : ℤ) : ℚ) + r) := by
  have htgt : targetWarmth t = specTargetWarmth t := rfl
  refine ⟨htgt, ?_⟩
  have hpy : pyOrWarmth f.warmth_level = f.warmth_level.getD 3 := by
    cases hfw : f.warmth_level with
    | none => rfl
    | some v =>
      have hv : ¬ v = 0 := fun h0 => hwl (by rw [hfw, h0])
      simp [pyOrWarmth, hv]
  rw [heuristic_score_formula { cloth_id := n, category := cat, features := .dict f }
      t w tpo r (pyOrWarmth f.warmth_level) (f.is_rain_ok.getD false) rfl rfl,
    hpy, hw, htgt]
  simp

/-- C6: under rain weather an otherwise identical candidate with
rain-suitability false or absent scores exactly 3 less than one with
rain-suitability true; under any other weather they score equally. -/
theorem spec2proof_C6 (f : Feat) (t : ℚ) (w : String) (tpo : Option String)
    (r : ℚ) (n : Nat) (cat : CatVal) (rb : Option Bool)
    (hrb : rb = none ∨ rb = some false) :
    ∃ sT sF,
      heuristic_score
          { cloth_id := n, category := cat, features := .dict { f with is_rain_ok := some true } }
          t w tpo r = .ok sT ∧
      heuristic_score
          { cloth_id := n, category := cat, features := .dict { f with is_rain_ok := rb } }
          t w tpo r = .ok sF ∧
      (isRainy w = true → sF = sT - 3) ∧
      (isRainy w = false → sF = sT) := by
  have hrkF : rb.getD false = false := by
    rcases hrb with h | h <;> subst h <;> rfl
  have hT := heuristic_score_formula
    { cloth_id := n, category := cat, features := .dict { f with is_rain_ok := some true } }
    t w tpo r (pyOrWarmth f.warmth_level) true rfl rfl
  have hF := heuristic_score_formula
    { cloth_id := n, category := cat, features := .dict { f with is_rain_ok := rb } }
    t w tpo r (pyOrWarmth f.warmth_level) false rfl
    (by show Except.ok (rb.getD false) = Except.ok false; rw [hrkF])
  refine ⟨_, _, hT, hF, ?_, ?_⟩
  · intro hrain
    rw [hrain]
    simp only [Bool.not_true, Bool.not_false, Bool.and_true, Bool.and_false,
      Bool.true_and, Bool.false_and, if_pos, if_neg, Bool.false_eq_true,
      not_false_eq_true, reduceIte]
    push_cast
    ring
  · intro hrain
    rw [hrain]
    simp only [Bool.not_true, Bool.not_false, Bool.and_true, Bool.and_false,
      Bool.true_and, Bool.false_and, if_pos, if_neg, Bool.false_eq_true,
      not_false_eq_true, reduceIte]

/-- C7: the tie-breaker is additive on the deterministic base score (the
score at draw 0), and for two candidates whose base scores differ the
higher-based one gets the strictly higher total under every pair of draws
in [0, 1/2) — so only ties are non-deterministic. -/
theorem spec2proof_C7 (i₁ i₂ : Item) (t : ℚ) (w : String) (tpo : Option String)
    (b₁ b₂ r₁ r₂ : ℚ)
    (h₁ : heuristic_score i₁ t w tpo 0 = .ok b₁)
    (h₂ : heuristic_score i₂ t w tpo 0 = .ok b₂)
    (hlt : b₁ < b₂) (hr₁ : 0 ≤ r₁ ∧ r₁ < 1/2) (hr₂ : 0 ≤ r₂ ∧ r₂ < 1/2) :
    heuristic_score i₁ t w tpo r₁ = .ok (b₁ + r₁) ∧
    heuristic_score i₂ t w tpo r₂ = .ok (b₂ + r₂) ∧
    b₁ + r₁ < b₂ + r₂ := by
  obtain ⟨z₁, rfl⟩ := heuristic_score_int i₁ t w tpo b₁ h₁
  obtain ⟨z₂, rfl⟩ := heuristic_score_int i₂ t w tpo b₂ h₂
  refine ⟨?_, ?_, ?_⟩
  · rw [heuristic_score_shift i₁ t w tpo r₁, h₁]
    rfl
  · rw [heuristic_score_shift i₂ t w tpo r₂, h₂]
    rfl
  · have hz : z₁ < z₂ := by exact_mod_cast hlt
    have hz1 : z₁ + 1 ≤ z₂ := hz
    have hq : (z₁ : ℚ) + 1 ≤ (z₂ : ℚ) := by exact_mod_cast hz1
    have half : (1 : ℚ) / 2 < 1 := by norm_num
    linarith [hr₁.2, hr₂.1]

/-- C10: for a candidate whose warmth level is absent or within 1..5 (its
features being a dict or an absent key), every temperature, weather,
occasion and tie-breaker draw in [0, 1/2) yield a score in [3, 21/2). -/
theorem spec2proof_C10 (i : Item) (t : ℚ) (w : String) (tpo : Option String)
    (r : ℚ) (hr : 0 ≤ r ∧ r < 1/2)
    (hwl : i.features = .missing ∨
      ∃ f, i.features = .dict f ∧
        (f.warmth_level = none ∨
          ∃ v, f.warmth_level = some v ∧ 1 ≤ v ∧ v ≤ 5)) :
    ∃ s, heuristic_score i t w tpo r = .ok s ∧ 3 ≤ s ∧ s < 21/2 := by
  obtain ⟨wl, rk, hwarm, hrk, hwl1, hwl5⟩ :
      ∃ wl rk, warmthOf i.features = .ok wl ∧ rainOkOf i.features = .ok rk ∧
        1 ≤ wl ∧ wl ≤ 5 := by
    rcases hwl with hm | ⟨f, hf, hcases⟩
    · rw [hm]
      exact ⟨3, false, rfl, rfl, by norm_num, by norm_num⟩
    · rw [hf]
      rcases hcases with hnone | ⟨v, hv, hv1, hv5⟩
      · refine ⟨3, f.is_rain_ok.getD false, ?_, rfl, by norm_num, by norm_num⟩
        show Except.ok (pyOrWarmth f.warmth_level) = Except.ok 3
        rw [hnone]
        rfl
      · have hv0 : ¬ v = 0 := by omega
        refine ⟨v, f.is_rain_ok.getD false, ?_, rfl, hv1, hv5⟩
        show Except.ok (pyOrWarmth f.warmth_level) = Except.ok v
        rw [hv]
        simp [pyOrWarmth, hv0]
  have htr := targetWarmth_range t
  have habs : |targetWarmth t - wl| ≤ 4 :=
    abs_le.mpr ⟨by omega, by omega⟩
  have habs0 : (0 : ℤ) ≤ |targetWarmth t - wl| := abs_nonneg _
  have h4 : ((|targetWarmth t - wl| : ℤ) : ℚ) ≤ 4 := by exact_mod_cast habs
  have h0 : (0 : ℚ) ≤ ((|targetWarmth t - wl| : ℤ) : ℚ) := by exact_mod_cast habs0
  refine ⟨_, heuristic_score_formula i t w tpo r wl rk hwarm hrk, ?_, ?_⟩ <;>
    by_cases hcond : (isRainy w && !rk) = true
  · rw [if_pos hcond]
    push_cast
    push_cast at h4 h0
    linarith [hr.1, hr.2]
  · rw [if_neg hcond]
    push_cast
    push_cast at h4 h0
    linarith [hr.1, hr.2]
  · rw [if_pos hcond]
    push_cast
    push_cast at h4 h0
    linarith [hr.1, hr.2]
  · rw [if_neg hcond]
    push_cast
    push_cast at h4 h0
    linarith [hr.1, hr.2]

/-! ### Grouping lemmas -/

/-- The number of distinct category keys among the candidates, as
`recommend_outfit` buckets them (absent category ↦ the fallback label,
null category ↦ the `None` key, any string ↦ itself). -/
def distinctCategoryCount (cands : List Item) : Nat :=
  (cands.map getCatKey).dedup.length

theorem addToGroup_keys (acc : List (Option String × List Item))
    (k : Option String) (c : Item) :
    (addToGroup acc k c).map Prod.fst =
      if k ∈ acc.map Prod.fst then acc.map Prod.fst
      else acc.map Prod.fst ++ [k] := by
  induction acc with
  | nil => simp [addToGroup]
  | cons p rest ih =>
    obtain ⟨k0, items⟩ := p
    by_cases hk : k0 = k
    · subst hk
      simp [addToGroup]
    · simp only [addToGroup, if_neg hk, List.map_cons, ih]
      by_cases hmem : k ∈ rest.map Prod.fst
      · rw [if_pos hmem, if_pos (List.mem_cons_of_mem _ hmem)]
      · rw [if_neg hmem, if_neg ?_]
        · simp
        · intro hc
          rcases List.mem_cons.mp hc with h1 | h1
          · exact hk h1.symm
          · exact hmem h1

theorem addToGroup_keys_mem (acc : List (Option String × List Item))
    (k : Option String) (c : Item) (x : Option String) :
    x ∈ (addToGroup acc k c).map Prod.fst ↔ x ∈ acc.map Prod.fst ∨ x = k := by
  rw [addToGroup_keys]
  by_cases hmem : k ∈ acc.map Prod.fst
  · rw [if_pos hmem]
    constructor
    · exact Or.inl
    · rintro (h | rfl)
      · exact h
      · exact hmem
  · rw [if_neg hmem]
    simp

theorem addToGroup_keys_nodup (acc : List (Option String × List Item))
    (k : Option String) (c : Item) (h : (acc.map Prod.fst).Nodup) :
    ((addToGroup acc k c).map Prod.fst).Nodup := by
  rw [addToGroup_keys]
  by_cases hmem : k ∈ acc.map Prod.fst
  · rwa [if_pos hmem]
  · rw [if_neg hmem]
    simp [List.nodup_append, h, hmem]

theorem addToGroup_snd_mem (k : Option String) (c : Item) :
    ∀ (acc : List (Option String × List Item)) (p : Option String × List Item),
      p ∈ addToGroup acc k c → ∀ x ∈ p.2, (∃ q ∈ acc, x ∈ q.2) ∨ x = c := by
  intro acc
  induction acc with
  | nil =>
    intro p hp x hx
    simp only [addToGroup, List.mem_singleton] at hp
    subst hp
    right
    simpa using hx
  | cons q0 rest ih =>
    obtain ⟨k0, items⟩ := q0
    intro p hp x hx
    by_cases hk : k0 = k
    · subst hk
      simp only [addToGroup, if_pos rfl] at hp
      rcases List.mem_cons.mp hp with rfl | hp2
      · rcases List.mem_append.mp hx with h1 | h1
        · exact Or.inl ⟨(k0, items), List.mem_cons_self _ _, h1⟩
        · right
          simpa using h1
      · exact Or.inl ⟨p, List.mem_cons_of_mem _ hp2, hx⟩
    · simp only [addToGroup, if_neg hk] at hp
      rcases List.mem_cons.mp hp with rfl | hp2
      · exact Or.inl ⟨(k0, items), List.mem_cons_self _ _, hx⟩
      · rcases ih p hp2 x hx with ⟨q, hq, hxq⟩ | h1
        · exact Or.inl ⟨q, List.mem_cons_of_mem _ hq, hxq⟩
        · exact Or.inr h1

theorem addToGroup_ne_nil (k : Option String) (c : Item) :
    ∀ (acc : List (Option String × List Item)),
      (∀ p ∈ acc, p.2 ≠ []) → ∀ p ∈ addToGroup acc k c, p.2 ≠ [] := by
  intro acc
  induction acc with
  | nil =>
    intro _ p hp
    simp only [addToGroup, List.mem_singleton] at hp
    subst hp
    simp
  | cons q0 rest ih =>
    obtain ⟨k0, items⟩ := q0
    intro h p hp
    by_cases hk : k0 = k
    · subst hk
      simp only [addToGroup, if_pos rfl] at hp
      rcases List.mem_cons.mp hp with rfl | hp2
      · simp
      · exact h p (List.mem_cons_of_mem _ hp2)
    · simp only [addToGroup, if_neg hk] at hp
      rcases List.mem_cons.mp hp with rfl | hp2
      · exact h (k0, items) (List.mem_cons_self _ _)
      · exact ih (fun q hq => h q (List.mem_cons_of_mem _ hq)) p hp2

theorem addToGroup_homog (k : Option String) (c : Item) (hkc : getCatKey c = k) :
    ∀ (acc : List (Option String × List Item)),
      (∀ p ∈ acc, ∀ x ∈ p.2, getCatKey x = p.1) →
      ∀ p ∈ addToGroup acc k c, ∀ x ∈ p.2, getCatKey x = p.1 := by
  intro acc
  induction acc with
  | nil =>
    intro _ p hp x hx
    simp only [addToGroup, List.mem_singleton] at hp
    subst hp
    simp only [List.mem_singleton] at hx
    subst hx
    exact hkc
  | cons q0 rest ih =>
    obtain ⟨k0, items⟩ := q0
    intro h p hp x hx
    by_cases hk : k0 = k
    · subst hk
      simp only [addToGroup, if_pos rfl] at hp
      rcases List.mem_cons.mp hp with rfl | hp2
      · rcases List.mem_append.mp hx with h1 | h1
        · exact h (k0, items) (List.mem_cons_self _ _) x h1
        · simp only [List.mem_singleton] at h1
          subst h1
          exact hkc
      · exact h p (List.mem_cons_of_mem _ hp2) x hx
    · simp only [addToGroup, if_neg hk] at hp
      rcases List.mem_cons.mp hp with rfl | hp2
      · exact h (k0, items) (List.mem_cons_self _ _) x hx
      · exact ih (fun q hq => h q (List.mem_cons_of_mem _ hq)) p hp2 x hx

theorem addToGroup_self_mem (k : Option String) (c : Item) :
    ∀ (acc : List (Option String × List Item)),
      ∃ p ∈ addToGroup acc k c, c ∈ p.2 := by
  intro acc
  induction acc with
  | nil => exact ⟨(k, [c]), by simp [addToGroup]⟩
  | cons q0 rest ih =>
    obtain ⟨k0, items⟩ := q0
    by_cases hk : k0 = k
    · subst hk
      refine ⟨(k0, items ++ [c]), ?_, by simp⟩
      simp [addToGroup]
    · obtain ⟨p, hp, hcp⟩ := ih
      refine ⟨p, ?_, hcp⟩
      simp only [addToGroup, if_neg hk]
      exact List.mem_cons_of_mem _ hp

theorem addToGroup_mono (k : Option String) (c : Item) :
    ∀ (acc : List (Option String × List Item)) (q : Option String × List Item),
      q ∈ acc → ∃ p ∈ addToGroup acc k c, q.2 ⊆ p.2 := by
  intro acc
  induction acc with
  | nil =>
    intro q hq
    simp at hq
  | cons q0 rest ih =>
    obtain ⟨k0, items⟩ := q0
    intro q hq
    by_cases hk : k0 = k
    · subst hk
      rcases List.mem_cons.mp hq with rfl | hq2
      · refine ⟨(k0, items ++ [c]), ?_, ?_⟩
        · simp [addToGroup]
        · exact fun x hx => List.mem_append_left _ hx
      · refine ⟨q, ?_, fun x hx => hx⟩
        simp only [addToGroup, if_pos rfl]
        exact List.mem_cons_of_mem _ hq2
    · rcases List.mem_cons.mp hq with rfl | hq2
      · refine ⟨(k0, items), ?_, fun x hx => hx⟩
        simp only [addToGroup, if_neg hk]
        exact List.mem_cons_self _ _
      · obtain ⟨p, hp, hsub⟩ := ih q hq2
        refine ⟨p, ?_, hsub⟩
        simp only [addToGroup, if_neg hk]
        exact List.mem_cons_of_mem _ hp

theorem foldlGroups_keys_mem (l : List Item) :
    ∀ (acc : List (Option String × List Item)) (x : Option String),
      x ∈ ((l.foldl (fun a c => addToGroup a (getCatKey c) c) acc).map Prod.fst) ↔
        x ∈ acc.map Prod.fst ∨ x ∈ l.map getCatKey := by
  induction l with
  | nil => simp
  | cons c cs ih =>
    intro acc x
    rw [List.foldl_cons, ih, addToGroup_keys_mem]
    simp [List.mem_cons, or_assoc]

theorem foldlGroups_nodup (l : List Item) :
    ∀ (acc : List (Option String × List Item)),
      (acc.map Prod.fst).Nodup →
      ((l.foldl (fun a c => addToGroup a (getCatKey c) c) acc).map Prod.fst).Nodup := by
  induction l with
  | nil => exact fun acc h => h
  | cons c cs ih =>
    intro acc h
    rw [List.foldl_cons]
    exact ih _ (addToGroup_keys_nodup acc (getCatKey c) c h)

theorem foldlGroups_snd_mem (l : List Item) :
    ∀ (acc : List (Option String × List Item)) (p : Option String × List Item),
      p ∈ l.foldl (fun a c => addToGroup a (getCatKey c) c) acc →
      ∀ x ∈ p.2, (∃ q ∈ acc, x ∈ q.2) ∨ x ∈ l := by
  induction l with
  | nil =>
    intro acc p hp x hx
    exact Or.inl ⟨p, hp, hx⟩
  | cons c cs ih =>
    intro acc p hp x hx
    rw [List.foldl_cons] at hp
    rcases ih _ p hp x hx with ⟨q, hq, hxq⟩ | h1
    · rcases addToGroup_snd_mem (getCatKey c) c acc q hq x hxq with ⟨q2, hq2, hxq2⟩ | h2
      · exact Or.inl ⟨q2, hq2, hxq2⟩
      · exact Or.inr (h2 ▸ List.mem_cons_self _ _)
    · exact Or.inr (List.mem_cons_of_mem _ h1)

theorem foldlGroups_ne_nil (l : List Item) :
    ∀ (acc : List (Option String × List Item)),
      (∀ p ∈ acc, p.2 ≠ []) →
      ∀ p ∈ l.foldl (fun a c => addToGroup a (getCatKey c) c) acc, p.2 ≠ [] := by
  induction l with
  | nil => exact fun acc h => h
  | cons c cs ih =>
    intro acc h p hp
    rw [List.foldl_cons] at hp
    exact ih _ (addToGroup_ne_nil (getCatKey c) c acc h) p hp

theorem foldlGroups_homog (l : List Item) :
    ∀ (acc : List (Option String × List Item)),
      (∀ p ∈ acc, ∀ x ∈ p.2, getCatKey x = p.1) →
      ∀ p ∈ l.foldl (fun a c => addToGroup a (getCatKey c) c) acc,
        ∀ x ∈ p.2, getCatKey x = p.1 := by
  induction l with
  | nil => exact fun acc h => h
  | cons c cs ih =>
    intro acc h p hp
    rw [List.foldl_cons] at hp
    exact ih _ (addToGroup_homog (getCatKey c) c rfl acc h) p hp

theorem foldlGroups_mono (l : List Item) :
    ∀ (acc : List (Option String × List Item)) (q : Option String × List Item),
      q ∈ acc →
      ∃ p ∈ l.foldl (fun a c => addToGroup a (getCatKey c) c) acc, q.2 ⊆ p.2 := by
  induction l with
  | nil => exact fun acc q hq => ⟨q, hq, fun x hx => hx⟩
  | cons c cs ih =>
    intro acc q hq
    rw [List.foldl_cons]
    obtain ⟨q2, hq2, hsub2⟩ := addToGroup_mono (getCatKey c) c acc q hq
    obtain ⟨p, hp, hsub⟩ := ih _ q2 hq2
    exact ⟨p, hp, fun x hx => hsub (hsub2 hx)⟩

theorem foldlGroups_covers (l : List Item) :
    ∀ (acc : List (Option String × List Item)) (c : Item), c ∈ l →
      ∃ p ∈ l.foldl (fun a c0 => addToGroup a (getCatKey c0) c0) acc, c ∈ p.2 := by
  induction l with
  | nil =>
    intro acc c hc
    simp at hc
  | cons c0 cs ih =>
    intro acc c hc
    rw [List.foldl_cons]
    rcases List.mem_cons.mp hc with rfl | hc2
    · obtain ⟨q, hq, hcq⟩ := addToGroup_self_mem (getCatKey c) c acc
      obtain ⟨p, hp, hsub⟩ := foldlGroups_mono cs _ q hq
      exact ⟨p, hp, hsub hcq⟩
    · exact ih _ c hc2

/-- The selector produces one group per distinct category key. -/
theorem groupByCat_length (cands : List Item) :
    (groupByCat cands).length = distinctCategoryCount cands := by
  have hnodup : ((groupByCat cands).map Prod.fst).Nodup :=
    foldlGroups_nodup cands [] (by simp)
  have hmem : ∀ x, x ∈ (groupByCat cands).map Prod.fst ↔ x ∈ cands.map getCatKey := by
    intro x
    rw [groupByCat, foldlGroups_keys_mem]
    simp
  have h2 : ((groupByCat cands).map Prod.fst).toFinset = (cands.map getCatKey).toFinset := by
    ext x
    simp only [List.mem_toFinset]
    exact hmem x
  calc (groupByCat cands).length
      = ((groupByCat cands).map Prod.fst).length := (List.length_map _ _).symm
    _ = ((groupByCat cands).map Prod.fst).dedup.length := by
        rw [List.Nodup.dedup hnodup]
    _ = ((groupByCat cands).map Prod.fst).toFinset.card := (List.card_toFinset _).symm
    _ = (cands.map getCatKey).toFinset.card := by rw [h2]
    _ = (cands.map getCatKey).dedup.length := List.card_toFinset _

/-- Every group of `groupByCat` is nonempty and consists of candidates
whose features are dicts, when all input candidates are such. -/
theorem groupByCat_spec (cands : List Item)
    (hwf : ∀ c ∈ cands, c.features.isDict = true) :
    ∀ p ∈ groupByCat cands, p.2 ≠ [] ∧ ∀ c ∈ p.2, c.features.isDict = true := by
  intro p hp
  refine ⟨foldlGroups_ne_nil cands [] (by simp) p hp, ?_⟩
  intro c hc
  rcases foldlGroups_snd_mem cands [] p hp c hc with ⟨q, hq, _⟩ | hc2
  · simp at hq
  · exact hwf c hc2

/-! ### Selection lemmas -/

theorem scoreItems_ok (t : ℚ) (w : String) (tpo : Option String) (r : Nat → ℚ) :
    ∀ (items : List Item) (idx : Nat),
      (∀ c ∈ items, c.features.isDict = true) →
      ∃ l, scoreItems t w tpo r idx items = .ok l ∧ l.length = items.length ∧
        ∀ p ∈ l, p.1 ∈ items := by
  intro items
  induction items with
  | nil =>
    intro idx _
    exact ⟨[], rfl, rfl, by simp⟩
  | cons c cs ih =>
    intro idx h
    obtain ⟨s, hs⟩ :=
      heuristic_score_isDict_ok c t w tpo (r idx) (h c (List.mem_cons_self _ _))
    obtain ⟨l, hl, hlen, hmem⟩ := ih (idx + 1) (fun x hx => h x (List.mem_cons_of_mem _ hx))
    refine ⟨(c, s) :: l, ?_, by simp [hlen], ?_⟩
    · simp only [scoreItems, hs, hl]
    · intro p hp
      rcases List.mem_cons.mp hp with rfl | hp2
      · exact List.mem_cons_self _ _
      · exact List.mem_cons_of_mem _ (hmem p hp2)

theorem reasonLine_ok (k : Option String) (b : Item) (s : ℚ)
    (h : b.features.isDict = true) : ∃ line, reasonLine k b s = .ok line := by
  obtain ⟨n, cv, fv⟩ := b
  cases fv with
  | missing => simp [FeaturesVal.isDict] at h
  | null => simp [FeaturesVal.isDict] at h
  | dict f => exact ⟨_, rfl⟩

theorem selectLoop_ok (t : ℚ) (w : String) (tpo : Option String) (r : Nat → ℚ) :
    ∀ (gs : List (Option String × List Item)) (idx : Nat),
      (∀ p ∈ gs, p.2 ≠ [] ∧ ∀ c ∈ p.2, c.features.isDict = true) →
      ∃ sel lines, selectLoop t w tpo r idx gs = .ok (sel, lines) ∧
        List.Forall₂ (fun s p => s ∈ p.2) sel gs ∧
        lines.length = gs.length := by
  intro gs
  induction gs with
  | nil =>
    intro idx _
    exact ⟨[], [], rfl, List.Forall₂.nil, rfl⟩
  | cons g rest ih =>
    obtain ⟨k, items⟩ := g
    intro idx h
    have hg := h (k, items) (List.mem_cons_self _ _)
    obtain ⟨scores, hscores, hslen, hsmem⟩ := scoreItems_ok t w tpo r items idx hg.2
    have hperm := List.mergeSort_perm scores (fun a b => decide (b.2 ≤ a.2))
    have hlen2 : (scores.mergeSort (fun a b => decide (b.2 ≤ a.2))).length = items.length := by
      rw [hperm.length_eq, hslen]
    have hne : scores.mergeSort (fun a b => decide (b.2 ≤ a.2)) ≠ [] := by
      intro h0
      rw [h0] at hlen2
      exact hg.1 (List.length_eq_zero.mp hlen2.symm)
    obtain ⟨bs, tail, hsort⟩ := List.exists_cons_of_ne_nil hne
    obtain ⟨best, s⟩ := bs
    have hbest_scores : (best, s) ∈ scores :=
      hperm.mem_iff.mp (by rw [hsort]; exact List.mem_cons_self _ _)
    have hbest_items : best ∈ items := hsmem _ hbest_scores
    obtain ⟨line, hline⟩ := reasonLine_ok k best s (hg.2 best hbest_items)
    obtain ⟨sel, lines, hsel, hf2, hllen⟩ :=
      ih (idx + items.length) (fun p hp => h p (List.mem_cons_of_mem _ hp))
    refine ⟨best :: sel, line :: lines, ?_,
      List.Forall₂.cons hbest_items hf2, by simp [hllen]⟩
    simp only [selectLoop, hscores, hsort, hline, hsel]

theorem recommend_outfit_ok (cands : List Item) (t : ℚ) (w : String)
    (tpo : Option String) (r : Nat → ℚ)
    (hwf : ∀ c ∈ cands, c.features.isDict = true) :
    ∃ sel lines,
      recommend_outfit cands t w tpo r = .ok ⟨sel, String.intercalate "\n" lines⟩ ∧
      sel.length = (groupByCat cands).length ∧
      lines.length = (groupByCat cands).length ∧
      List.Forall₂ (fun s p => s ∈ p.2) sel (groupByCat cands) := by
  obtain ⟨sel, lines, hsel, hf2, hllen⟩ :=
    selectLoop_ok t w tpo r (groupByCat cands) 0 (groupByCat_spec cands hwf)
  exact ⟨sel, lines, by simp only [recommend_outfit, hsel], hf2.length_eq, hllen, hf2⟩

/-! ### Occasion (tpo) irrelevance lemmas -/

theorem heuristic_score_tpo (i : Item) (t : ℚ) (w : String)
    (tpo₁ tpo₂ : Option String) (r : ℚ) :
    heuristic_score i t w tpo₁ r = heuristic_score i t w tpo₂ r := rfl

theorem scoreItems_tpo (t : ℚ) (w : String) (r : Nat → ℚ)
    (tpo₁ tpo₂ : Option String) :
    ∀ (items : List Item) (idx : Nat),
      scoreItems t w tpo₁ r idx items = scoreItems t w tpo₂ r idx items := by
  intro items
  induction items with
  | nil => intro idx; rfl
  | cons c cs ih =>
    intro idx
    have he : heuristic_score c t w tpo₂ (r idx) = heuristic_score c t w tpo₁ (r idx) := rfl
    simp only [scoreItems, he, ih]

theorem selectLoop_tpo (t : ℚ) (w : String) (r : Nat → ℚ)
    (tpo₁ tpo₂ : Option String) :
    ∀ (gs : List (Option String × List Item)) (idx : Nat),
      selectLoop t w tpo₁ r idx gs = selectLoop t w tpo₂ r idx gs := by
  intro gs
  induction gs with
  | nil => intro idx; rfl
  | cons g rest ih =>
    obtain ⟨k, items⟩ := g
    intro idx
    simp only [selectLoop, scoreItems_tpo t w r tpo₁ tpo₂ items idx, ih]

theorem recommend_outfit_tpo (cands : List Item) (t : ℚ) (w : String)
    (r : Nat → ℚ) (tpo₁ tpo₂ : Option String) :
    recommend_outfit cands t w tpo₁ r = recommend_outfit cands t w tpo₂ r := by
  simp only [recommend_outfit, selectLoop_tpo t w r tpo₁ tpo₂]

/-! ### Claim theorems -/

/-- C1: a garment of the user is in the candidate set of the `/recommend`
query exactly when its status is ACTIVE and it has no wear event dated on
or after `today − cadence_days`, the cadence defaulting to 3 when absent
(the candidate list sent to the stylist is the image of this set under the
`toCandidate` projection). The boundary is inclusive: a garment worn
exactly on the cutoff date is excluded. The hypothesis on the stored
cadence reflects the data model's `wash_cycle_days ≥ 1` (Python `or` would
coerce a stored 0 to the default as well). -/
theorem spec2proof_C1 (clothes : List ClothRec) (events : List WornRec)
    (uid : Nat) (wcd : Option Int) (today : Int) (c : ClothRec)
    (hc : c ∈ clothes) (huser : c.user_id = uid)
    (hcad : wcd = none ∨ ∃ d, wcd = some d ∧ 1 ≤ d) :
    c ∈ eligibleClothes clothes events uid wcd today ↔
      (c.status = "ACTIVE" ∧
        ¬ ∃ e ∈ events, e.cloth_id = c.cloth_id ∧
          today - wcd.getD 3 ≤ e.worn_date) := by
  have hpy : pyOrInt wcd 3 = wcd.getD 3 := by
    rcases hcad with h | ⟨d, h, hd⟩ <;> subst h
    · rfl
    · have hd0 : ¬ d = 0 := by omega
      simp [pyOrInt, hd0]
  simp only [eligibleClothes, hpy, List.mem_filter, hc, true_and,
    Bool.and_eq_true, beq_iff_eq, bne_iff_ne, Bool.not_eq_true',
    decide_eq_true_eq, huser, ne_eq]
  rw [List.any_eq_false]
  constructor
  · rintro ⟨⟨hact, hrec⟩, -⟩
    refine ⟨hact, ?_⟩
    rintro ⟨e, he, heid, hdate⟩
    have h2 := hrec e he
    rw [Bool.and_eq_true, beq_iff_eq, decide_eq_true_eq] at h2
    exact h2 ⟨heid, hdate⟩
  · rintro ⟨hact, hrec⟩
    refine ⟨⟨hact, ?_⟩, ?_⟩
    · intro e he hcontra
      rw [Bool.and_eq_true, beq_iff_eq, decide_eq_true_eq] at hcontra
      exact hrec ⟨e, he, hcontra.1, hcontra.2⟩
    · rw [hact]
      decide

/-- C2: with no external capability configured the orchestrator falls back
to the local selection without any external attempt, and for every
non-empty list of candidates (whose features are feature dicts, the shape
the route always builds) it returns a selected list with exactly one entry
per distinct category key and a reason that is the newline-join of exactly
that many lines. -/
theorem spec2proof_C2 (cands : List Item) (t : ℚ) (w : String)
    (tpo : Option String) (r : Nat → ℚ) (ext : Option RecoResult)
    (hne : cands ≠ []) (hwf : ∀ c ∈ cands, c.features.isDict = true) :
    ∃ sel lines,
      get_recommendation false ext cands t w tpo r =
        (0, .ok ⟨sel, String.intercalate "\n" lines⟩) ∧
      sel.length = distinctCategoryCount cands ∧
      lines.length = distinctCategoryCount cands := by
  obtain ⟨sel, lines, hok, hsellen, hllen, -⟩ :=
    recommend_outfit_ok cands t w tpo r hwf
  refine ⟨sel, lines, ?_, ?_, ?_⟩
  · simp [get_recommendation, hok]
  · rw [hsellen, groupByCat_length]
  · rw [hllen, groupByCat_length]

/-- C3: when the eligibility query returns nothing, the route answers the
fixed no-candidates response immediately: no external attempt is made (the
attempt counter is 0 for either configuration) and neither selection path
runs. -/
theorem spec2proof_C3 (cfg : Bool) (ext : Option RecoResult)
    (clothes : List ClothRec) (events : List WornRec) (uid : Nat)
    (wcd : Option Int) (today : Int) (t : ℚ) (w : String)
    (tpo : Option String) (r : Nat → ℚ)
    (hempty : eligibleClothes clothes events uid wcd today = []) :
    recommend_route cfg ext clothes events uid wcd today t w tpo r =
      (0, .ok ⟨[], noCandidatesReason⟩) := by
  simp [recommend_route, hempty]

/-- C4 counterexample: a candidate whose `features` value is `None` (a
malformed feature value) makes the fallback selection raise
`AttributeError` inside `_heuristic_score`, so the fallback path is not
error-free on arbitrary malformed candidates. -/
theorem spec2proof_C4_counterexample :
    recommend_outfit [{ cloth_id := 1, category := .str "top", features := .null }]
      10 "clear" none (fun _ => 0) = .error "AttributeError" := by decide

/-- C4 (amended): the fallback selection succeeds for every non-empty
candidate list whose candidates carry an actual feature dict — fields of
that dict may be absent or null and degrade to defaults — and the
orchestrator without external capability returns its result unchanged;
a `features` value that is itself missing or null, or a non-integer
warmth, is outside this guarantee (the code raises there). -/
theorem spec2proof_C4 (cands : List Item) (t : ℚ) (w : String)
    (tpo : Option String) (r : Nat → ℚ) (hne : cands ≠ [])
    (hwf : ∀ c ∈ cands, c.features.isDict = true) :
    ∃ res, recommend_outfit cands t w tpo r = .ok res ∧
      get_recommendation false none cands t w tpo r = (0, .ok res) := by
  obtain ⟨sel, lines, hok, -, -, -⟩ := recommend_outfit_ok cands t w tpo r hwf
  exact ⟨_, hok, by simp [get_recommendation, hok]⟩

/-- C8 counterexample: a candidate whose category value is an explicit
`None` is bucketed under the `None` key, not under the fixed fallback
label `"その他"` — with one absent-category and one null-category
candidate the selector builds two buckets (and so two selections), where
the claim demands a single fallback bucket. -/
theorem spec2proof_C8_counterexample :
    groupByCat [{ cloth_id := 1, category := .missing, features := .dict {} },
        { cloth_id := 2, category := .null, features := .dict {} }] =
      [(some "その他", [{ cloth_id := 1, category := .missing, features := .dict {} }]),
        (none, [{ cloth_id := 2, category := .null, features := .dict {} }])] ∧
    (none : Option String) ≠ some "その他" ∧
    ∃ res,
      recommend_outfit [{ cloth_id := 1, category := .missing, features := .dict {} },
          { cloth_id := 2, category := .null, features := .dict {} }]
        3 "clear" none (fun _ => 0) = .ok res ∧
      res.selected.length = 2 := by
  refine ⟨by decide, by decide, ?_⟩
  obtain ⟨sel, lines, hok, hsellen, -, -⟩ :=
    recommend_outfit_ok
      [{ cloth_id := 1, category := .missing, features := .dict {} },
        { cloth_id := 2, category := .null, features := .dict {} }]
      3 "clear" none (fun _ => 0) (by decide)
  exact ⟨_, hok, hsellen.trans (by decide)⟩

/-- C8 (amended): the selector groups candidates by their category key —
an absent category key falls back to the fixed label `"その他"`, an
explicit null category forms its own `None` bucket, and every string
category (recognized or not) forms its own bucket — the buckets partition
the candidates with pairwise distinct keys, and the selection loop
produces exactly one selection per bucket present. -/
theorem spec2proof_C8 (cands : List Item) (t : ℚ) (w : String)
    (tpo : Option String) (r : Nat → ℚ)
    (hwf : ∀ c ∈ cands, c.features.isDict = true) :
    (∀ c ∈ cands, c.category = .missing → getCatKey c = some "その他") ∧
    (∀ c ∈ cands, c.category = .null → getCatKey c = none) ∧
    (∀ p ∈ groupByCat cands, p.2 ≠ [] ∧ ∀ x ∈ p.2, getCatKey x = p.1) ∧
    ((groupByCat cands).map Prod.fst).Nodup ∧
    (∀ c ∈ cands, ∃ p ∈ groupByCat cands, c ∈ p.2) ∧
    ∃ sel lines, selectLoop t w tpo r 0 (groupByCat cands) = .ok (sel, lines) ∧
      sel.length = (groupByCat cands).length ∧
      List.Forall₂ (fun s p => s ∈ p.2) sel (groupByCat cands) := by
  refine ⟨?_, ?_, ?_, ?_, ?_, ?_⟩
  · intro c _ hcat
    simp [getCatKey, hcat]
  · intro c _ hcat
    simp [getCatKey, hcat]
  · intro p hp
    exact ⟨foldlGroups_ne_nil cands [] (by simp) p hp,
      fun x hx => foldlGroups_homog cands [] (by simp) p hp x hx⟩
  · exact foldlGroups_nodup cands [] (by simp)
  · intro c hc
    exact foldlGroups_covers cands [] c hc
  · obtain ⟨sel, lines, h1, h2, -⟩ :=
      selectLoop_ok t w tpo r (groupByCat cands) 0 (groupByCat_spec cands hwf)
    exact ⟨sel, lines, h1, h2.length_eq, h2⟩

/-- C9: the occasion argument is threaded through the scorer, the local
selection and the orchestrator but carries no weight — for the same
tie-breaker draws, any two occasion values yield identical scorer output
and identical selection, whatever the configuration. -/
theorem spec2proof_C9 (i : Item) (cands : List Item) (t : ℚ) (w : String)
    (tpo₁ tpo₂ : Option String) (r0 : ℚ) (r : Nat → ℚ) (cfg : Bool)
    (ext : Option RecoResult) :
    heuristic_score i t w tpo₁ r0 = heuristic_score i t w tpo₂ r0 ∧
    recommend_outfit cands t w tpo₁ r = recommend_outfit cands t w tpo₂ r ∧
    get_recommendation cfg ext cands t w tpo₁ r =
      get_recommendation cfg ext cands t w tpo₂ r := by
  refine ⟨heuristic_score_tpo i t w tpo₁ tpo₂ r0,
    recommend_outfit_tpo cands t w r tpo₁ tpo₂, ?_⟩
  cases cfg with
  | false => simp only [get_recommendation, recommend_outfit_tpo cands t w r tpo₁ tpo₂]
  | true =>
    cases ext with
    | none => simp only [get_recommendation, recommend_outfit_tpo cands t w r tpo₁ tpo₂]
    | some res => rfl

/-! ### Witnesses -/

/-- C1 witness: cadence 3, today = day 10 (2024-01-10): a garment worn on
day 8 (2024-01-08) is excluded, one worn on day 6 (2024-01-06) is
included. -/
theorem spec2proof_C1_witness :
    ((⟨1, 7, "ACTIVE", .missing, .missing⟩ : ClothRec) ∈
        [(⟨1, 7, "ACTIVE", .missing, .missing⟩ : ClothRec),
          ⟨2, 7, "ACTIVE", .missing, .missing⟩] ∧
      ((some 3 : Option Int) = none ∨ ∃ d, (some 3 : Option Int) = some d ∧ 1 ≤ d)) ∧
    ((⟨1, 7, "ACTIVE", .missing, .missing⟩ : ClothRec) ∈
        eligibleClothes
          [⟨1, 7, "ACTIVE", .missing, .missing⟩, ⟨2, 7, "ACTIVE", .missing, .missing⟩]
          [⟨1, 8⟩, ⟨2, 6⟩] 7 (some 3) 10 ↔
      ((⟨1, 7, "ACTIVE", .missing, .missing⟩ : ClothRec).status = "ACTIVE" ∧
        ¬ ∃ e ∈ [(⟨1, 8⟩ : WornRec), ⟨2, 6⟩],
          e.cloth_id = (⟨1, 7, "ACTIVE", .missing, .missing⟩ : ClothRec).cloth_id ∧
          10 - (some 3 : Option Int).getD 3 ≤ e.worn_date)) ∧
    ((⟨2, 7, "ACTIVE", .missing, .missing⟩ : ClothRec) ∈
        eligibleClothes
          [⟨1, 7, "ACTIVE", .missing, .missing⟩, ⟨2, 7, "ACTIVE", .missing, .missing⟩]
          [⟨1, 8⟩, ⟨2, 6⟩] 7 (some 3) 10 ↔
      ((⟨2, 7, "ACTIVE", .missing, .missing⟩ : ClothRec).status = "ACTIVE" ∧
        ¬ ∃ e ∈ [(⟨1, 8⟩ : WornRec), ⟨2, 6⟩],
          e.cloth_id = (⟨2, 7, "ACTIVE", .missing, .missing⟩ : ClothRec).cloth_id ∧
          10 - (some 3 : Option Int).getD 3 ≤ e.worn_date)) ∧
    (⟨1, 7, "ACTIVE", .missing, .missing⟩ : ClothRec) ∉
      eligibleClothes
        [⟨1, 7, "ACTIVE", .missing, .missing⟩, ⟨2, 7, "ACTIVE", .missing, .missing⟩]
        [⟨1, 8⟩, ⟨2, 6⟩] 7 (some 3) 10 ∧
    (⟨2, 7, "ACTIVE", .missing, .missing⟩ : ClothRec) ∈
      eligibleClothes
        [⟨1, 7, "ACTIVE", .missing, .missing⟩, ⟨2, 7, "ACTIVE", .missing, .missing⟩]
        [⟨1, 8⟩, ⟨2, 6⟩] 7 (some 3) 10 :=
  ⟨⟨by decide, Or.inr ⟨3, rfl, by norm_num⟩⟩,
    spec2proof_C1 _ _ 7 (some 3) 10 _ (by decide) (by decide)
      (Or.inr ⟨3, rfl, by norm_num⟩),
    spec2proof_C1 _ _ 7 (some 3) 10 _ (by decide) (by decide)
      (Or.inr ⟨3, rfl, by norm_num⟩),
    by decide, by decide⟩

/-- C2 witness: two candidates in two categories, no external capability:
two selections and two reason lines. -/
theorem spec2proof_C2_witness :
    (([{ cloth_id := 1, category := .str "top", features := .dict {} },
        { cloth_id := 2, category := .str "bottom", features := .dict {} }] :
          List Item) ≠ [] ∧
      ∀ c ∈ ([{ cloth_id := 1, category := .str "top", features := .dict {} },
        { cloth_id := 2, category := .str "bottom", features := .dict {} }] :
          List Item), c.features.isDict = true) ∧
    ∃ sel lines,
      get_recommendation false none
          [{ cloth_id := 1, category := .str "top", features := .dict {} },
            { cloth_id := 2, category := .str "bottom", features := .dict {} }]
          3 "clear" none (fun _ => 0) =
        (0, .ok ⟨sel, String.intercalate "\n" lines⟩) ∧
      sel.length = distinctCategoryCount
        [{ cloth_id := 1, category := .str "top", features := .dict {} },
          { cloth_id := 2, category := .str "bottom", features := .dict {} }] ∧
      lines.length = distinctCategoryCount
        [{ cloth_id := 1, category := .str "top", features := .dict {} },
          { cloth_id := 2, category := .str "bottom", features := .dict {} }] :=
  ⟨⟨by decide, by decide⟩,
    spec2proof_C2 _ 3 "clear" none (fun _ => 0) none (by decide) (by decide)⟩

/-- C3 witness: a wardrobe whose only garment is in the laundry yields no
candidates; even with the external capability configured the route answers
the fixed marker with zero external attempts. -/
theorem spec2proof_C3_witness :
    eligibleClothes [⟨1, 7, "LAUNDRY", .missing, .missing⟩] [] 7 none 10 = [] ∧
    recommend_route true (some ⟨[], "ext"⟩)
        [⟨1, 7, "LAUNDRY", .missing, .missing⟩] [] 7 none 10
        15 "clear" none (fun _ => 0) =
      (0, .ok ⟨[], noCandidatesReason⟩) :=
  ⟨by decide,
    spec2proof_C3 true (some ⟨[], "ext"⟩) _ [] 7 none 10 15 "clear" none
      (fun _ => 0) (by decide)⟩

/-- C4 witness: a single candidate with a partial feature dict (only a
warmth level) is selected without error. -/
theorem spec2proof_C4_witness :
    (([⟨1, .str "top", .dict { warmth_level := some 2 }⟩] : List Item) ≠ [] ∧
      ∀ c ∈ ([⟨1, .str "top", .dict { warmth_level := some 2 }⟩] : List Item),
        c.features.isDict = true) ∧
    ∃ res,
      recommend_outfit [⟨1, .str "top", .dict { warmth_level := some 2 }⟩]
          13 "RainY" none (fun _ => 0) = .ok res ∧
      get_recommendation false none
          [⟨1, .str "top", .dict { warmth_level := some 2 }⟩]
          13 "RainY" none (fun _ => 0) = (0, .ok res) :=
  ⟨⟨by decide, by decide⟩,
    spec2proof_C4 _ 13 "RainY" none (fun _ => 0) (by decide) (by decide)⟩

/-- C5 witness: temperature 13 maps to target warmth 4; a candidate of
warmth 2 in clear weather scores `10 − |4 − 2| + r`. -/
theorem spec2proof_C5_witness :
    (({ warmth_level := some 2 } : Feat).warmth_level ≠ some 0 ∧
      isRainy "clear" = false) ∧
    (targetWarmth 13 = specTargetWarmth 13 ∧
      heuristic_score
          { cloth_id := 1, category := .str "top",
            features := .dict { warmth_level := some 2 } }
          13 "clear" none (1/4) =
        .ok (((10 - |specTargetWarmth 13 -
          (({ warmth_level := some 2 } : Feat).warmth_level.getD 3)| : ℤ) : ℚ) + 1/4)) :=
  ⟨⟨by decide, by decide⟩,
    spec2proof_C5 13 1 (.str "top") { warmth_level := some 2 } "clear" none
      (1/4) (by decide) (by decide)⟩

/-- C6 witness: rainy weather, rain-suitability absent versus true. -/
theorem spec2proof_C6_witness :
    ((none : Option Bool) = none ∨ (none : Option Bool) = some false) ∧
    ∃ sT sF,
      heuristic_score
          { cloth_id := 1, category := .str "top",
            features := .dict { ({ warmth_level := some 4 } : Feat) with
              is_rain_ok := some true } }
          8 "Rainy" none 0 = .ok sT ∧
      heuristic_score
          { cloth_id := 1, category := .str "top",
            features := .dict { ({ warmth_level := some 4 } : Feat) with
              is_rain_ok := (none : Option Bool) } }
          8 "Rainy" none 0 = .ok sF ∧
      (isRainy "Rainy" = true → sF = sT - 3) ∧
      (isRainy "Rainy" = false → sF = sT) :=
  ⟨Or.inl rfl,
    spec2proof_C6 { warmth_level := some 4 } 8 "Rainy" none 0 1 (.str "top")
      none (Or.inl rfl)⟩

/-- C7 witness: at temperature 3 (target warmth 5) a warmth-1 candidate has
base 6 and a warmth-5 candidate base 10; for draws 0 and 1/4 the totals
keep that order. -/
theorem spec2proof_C7_witness :
    (heuristic_score
        { cloth_id := 1, category := .str "top",
          features := .dict { warmth_level := some 1 } } 3 "clear" none 0 =
      .ok 6 ∧
     heuristic_score
        { cloth_id := 2, category := .str "top",
          features := .dict { warmth_level := some 5 } } 3 "clear" none 0 =
      .ok 10 ∧
     (6 : ℚ) < 10 ∧ ((0 : ℚ) ≤ 0 ∧ (0 : ℚ) < 1/2) ∧ ((0 : ℚ) ≤ 1/4 ∧ (1/4 : ℚ) < 1/2)) ∧
    (heuristic_score
        { cloth_id := 1, category := .str "top",
          features := .dict { warmth_level := some 1 } } 3 "clear" none 0 =
      .ok (6 + 0) ∧
     heuristic_score
        { cloth_id := 2, category := .str "top",
          features := .dict { warmth_level := some 5 } } 3 "clear" none (1/4) =
      .ok (10 + 1/4) ∧
     (6 : ℚ) + 0 < 10 + 1/4) :=
  ⟨⟨by norm_num [heuristic_score, warmthOf, pyOrWarmth, targetWarmth,
      show isRainy "clear" = false from by decide],
    by norm_num [heuristic_score, warmthOf, pyOrWarmth, targetWarmth,
      show isRainy "clear" = false from by decide],
    by norm_num, by norm_num, by norm_num⟩,
    spec2proof_C7 _ _ 3 "clear" none 6 10 0 (1/4)
      (by norm_num [heuristic_score, warmthOf, pyOrWarmth, targetWarmth,
        show isRainy "clear" = false from by decide])
      (by norm_num [heuristic_score, warmthOf, pyOrWarmth, targetWarmth,
        show isRainy "clear" = false from by decide])
      (by norm_num) ⟨by norm_num, by norm_num⟩ ⟨by norm_num, by norm_num⟩⟩

/-- C8 witness: three candidates — absent category, null category, and a
string category — give three buckets and three selections. -/
theorem spec2proof_C8_witness :
    (∀ c ∈ ([{ cloth_id := 1, category := .missing, features := .dict {} },
        { cloth_id := 2, category := .null, features := .dict {} },
        { cloth_id := 3, category := .str "top", features := .dict {} }] :
          List Item), c.features.isDict = true) ∧
    ((∀ c ∈ ([{ cloth_id := 1, category := .missing, features := .dict {} },
        { cloth_id := 2, category := .null, features := .dict {} },
        { cloth_id := 3, category := .str "top", features := .dict {} }] :
          List Item), c.category = .missing → getCatKey c = some "その他") ∧
      (∀ c ∈ ([{ cloth_id := 1, category := .missing, features := .dict {} },
        { cloth_id := 2, category := .null, features := .dict {} },
        { cloth_id := 3, category := .str "top", features := .dict {} }] :
          List Item), c.category = .null → getCatKey c = none) ∧
      (∀ p ∈ groupByCat
          [{ cloth_id := 1, category := .missing, features := .dict {} },
            { cloth_id := 2, category := .null, features := .dict {} },
            { cloth_id := 3, category := .str "top", features := .dict {} }],
        p.2 ≠ [] ∧ ∀ x ∈ p.2, getCatKey x = p.1) ∧
      ((groupByCat
          [{ cloth_id := 1, category := .missing, features := .dict {} },
            { cloth_id := 2, category := .null, features := .dict {} },
            { cloth_id := 3, category := .str "top", features := .dict {} }]).map
        Prod.fst).Nodup ∧
      (∀ c ∈ ([{ cloth_id := 1, category := .missing, features := .dict {} },
        { cloth_id := 2, category := .null, features := .dict {} },
        { cloth_id := 3, category := .str "top", features := .dict {} }] :
          List Item), ∃ p ∈ groupByCat
            [{ cloth_id := 1, category := .missing, features := .dict {} },
              { cloth_id := 2, category := .null, features := .dict {} },
              { cloth_id := 3, category := .str "top", features := .dict {} }],
          c ∈ p.2) ∧
      ∃ sel lines,
        selectLoop 3 "clear" none (fun _ => 0) 0
            (groupByCat
              [{ cloth_id := 1, category := .missing, features := .dict {} },
                { cloth_id := 2, category := .null, features := .dict {} },
                { cloth_id := 3, category := .str "top", features := .dict {} }]) =
          .ok (sel, lines) ∧
        sel.length = (groupByCat
          [{ cloth_id := 1, category := .missing, features := .dict {} },
            { cloth_id := 2, category := .null, features := .dict {} },
            { cloth_id := 3, category := .str "top", features := .dict {} }]).length ∧
        List.Forall₂ (fun s p => s ∈ p.2) sel
          (groupByCat
            [{ cloth_id := 1, category := .missing, features := .dict {} },
              { cloth_id := 2, category := .null, features := .dict {} },
              { cloth_id := 3, category := .str "top", features := .dict {} }])) :=
  ⟨by decide, spec2proof_C8 _ 3 "clear" none (fun _ => 0) (by decide)⟩

/-- C10 witness: warmth 4 at temperature 20 under rain with draw 1/4. -/
theorem spec2proof_C10_witness :
    (((0 : ℚ) ≤ 1/4 ∧ (1/4 : ℚ) < 1/2) ∧
      ((⟨1, .str "top", .dict { warmth_level := some 4 }⟩ : Item).features =
          .missing ∨
        ∃ f, (⟨1, .str "top", .dict { warmth_level := some 4 }⟩ : Item).features =
            .dict f ∧
          (f.warmth_level = none ∨
            ∃ v, f.warmth_level = some v ∧ 1 ≤ v ∧ v ≤ 5))) ∧
    ∃ s,
      heuristic_score (⟨1, .str "top", .dict { warmth_level := some 4 }⟩ : Item)
          20 "rain" none (1/4) = .ok s ∧ 3 ≤ s ∧ s < 21/2 :=
  ⟨⟨⟨by norm_num, by norm_num⟩,
    Or.inr ⟨{ warmth_level := some 4 }, rfl, Or.inr ⟨4, rfl, by norm_num, by norm_num⟩⟩⟩,
    spec2proof_C10 _ 20 "rain" none (1/4) ⟨by norm_num, by norm_num⟩
      (Or.inr ⟨{ warmth_level := some 4 }, rfl,
        Or.inr ⟨4, rfl, by norm_num, by norm_num⟩⟩)⟩

end ClosetApp
